import Mathlib

/-!
Shallow embedding of the rusty6502 CPU core (src/bus.rs, src/cpu/mod.rs,
src/cpu/registers.rs, src/cpu/instructions.rs, src/cpu/lookup_table.rs).

Machine integers are modelled as `Nat` with explicit `% 256` / `% 65536`
at every point the Rust code wraps (`wrapping_add`, `wrapping_sub`,
`as u8`, `as u16`).  Rust panics (array index out of bounds, unresolved
opcode, wrong operand kind) are modelled as `Except CPU`, the error value
carrying the machine state as it stood at the instant of the panic.
The log-file append inside `CPU::exec` and `Bus::tick` (a no-op in the
source) touch no CPU state and are omitted.
-/

namespace Rusty6502

/-- Length of the backing array of `Bus`: the source declares
`memory: [u8; 0xFFFF]`, which is 65535 bytes (not 65536). -/
def MEMSIZE : Nat := 0xFFFF

/-- Source `Bus` from src/bus.rs: a flat byte array. -/
structure Bus where
  memory : Nat → Nat

/-- Source `Bus::default`: all cells zero. -/
def Bus.default : Bus := ⟨fun _ => 0⟩

/-- Source `Bus::read`: `self.memory[adr as usize]`.  Rust array indexing panics
(`none`) unless the index is below the array length `0xFFFF`. -/
def Bus.read (b : Bus) (adr : Nat) : Option Nat :=
  if adr < MEMSIZE then some (b.memory adr) else none

/-- Source `Bus::write`: `self.memory[adr as usize] = data`, same bound check. -/
def Bus.write (b : Bus) (adr data : Nat) : Option Bus :=
  if adr < MEMSIZE then
    some ⟨fun i => if i = adr then data else b.memory i⟩
  else none

/-- The status flags, src/cpu/registers.rs `Flag`. -/
structure Flag where
  carry : Bool
  zero : Bool
  interrupt_disable : Bool
  decimal : Bool
  b : Bool
  overflow : Bool
  negative : Bool
  deriving DecidableEq

/-- Source `bool_u8` from src/cpu/registers.rs. -/
def bool_u8 (b : Bool) : Nat := if b then 1 else 0

/-- Source `impl From<Flag> for u8` (pack): bit 5 is forced to 1. -/
def Flag.toU8 (f : Flag) : Nat :=
  bool_u8 f.carry
    ||| bool_u8 f.zero <<< 1
    ||| bool_u8 f.interrupt_disable <<< 2
    ||| bool_u8 f.decimal <<< 3
    ||| bool_u8 f.b <<< 4
    ||| 1 <<< 5
    ||| bool_u8 f.overflow <<< 6
    ||| bool_u8 f.negative <<< 7

/-- Source `impl From<u8> for Flag` (unpack): bit 5 is ignored. -/
def Flag.ofU8 (b : Nat) : Flag where
  carry := (1 &&& b) > 0
  zero := (1 <<< 1 &&& b) > 0
  interrupt_disable := (1 <<< 2 &&& b) > 0
  decimal := (1 <<< 3 &&& b) > 0
  b := (1 <<< 4 &&& b) > 0
  overflow := (1 <<< 6 &&& b) > 0
  negative := (1 <<< 7 &&& b) > 0

/-- Source `Flag::set_zero_negative`. -/
def Flag.set_zero_negative (f : Flag) (i : Nat) : Flag :=
  { f with zero := i == 0, negative := (i &&& 0x80) != 0 }

/-- Source `Registers` from src/cpu/registers.rs (all fields u8). -/
structure Registers where
  a : Nat
  x : Nat
  y : Nat
  sp : Nat

/-- Source `CPU` from src/cpu/mod.rs. -/
structure CPU where
  bus : Bus
  pc : Nat
  flags : Flag
  reg : Registers
  halted : Bool
  stack_loc : Nat

/-- Source `CPU::new`. -/
def CPU.new (b : Bus) : CPU where
  bus := b
  pc := 0
  flags := Flag.ofU8 0b100100
  reg := ⟨0, 0, 0, 0xfd⟩
  halted := false
  stack_loc := 0x100

/-- Source `self.bus.read(adr)` at CPU level: a panic carries the current state. -/
def cpuRead (c : CPU) (adr : Nat) : Except CPU Nat :=
  match c.bus.read adr with
  | some v => .ok v
  | none => .error c

/-- Source `self.bus.write(adr, data)` at CPU level. -/
def cpuWrite (c : CPU) (adr data : Nat) : Except CPU CPU :=
  match c.bus.write adr data with
  | some b => .ok { c with bus := b }
  | none => .error c

/-- Source `CPU::stack_push`: for `data > 0xFF` it recursively pushes the high
byte then the low byte; otherwise it writes `data as u8` at
`stack_loc + sp` and decrements `sp` with u8 wraparound. -/
def stack_push (c : CPU) (data : Nat) : Except CPU CPU :=
  if h : data > 0xFF then
    let lo := data &&& 0xFF
    let hi := (data &&& 0xFF00) >>> 8
    match stack_push c hi with
    | .error e => .error e
    | .ok c1 => stack_push c1 lo
  else
    match cpuWrite c (c.stack_loc + c.reg.sp) (data % 256) with
    | .error e => .error e
    | .ok c1 => .ok { c1 with reg := { c1.reg with sp := (c1.reg.sp + 255) % 256 } }
termination_by data
decreasing_by
  all_goals
    have h1 : data &&& 0xFF00 ≤ 0xFF00 := Nat.and_le_right
    have h2 : (data &&& 0xFF00) / 256 ≤ 0xFF00 / 256 := Nat.div_le_div_right h1
    have h3 : (data &&& 0xFF00) >>> 8 = (data &&& 0xFF00) / 256 := by
      rw [Nat.shiftRight_eq_div_pow]
    have h4 : data &&& 0xFF ≤ 0xFF := Nat.and_le_right
    omega

/-- Source `CPU::stack_pop`: increments `sp` (wrapping), then reads
`sp as u16 | stack_loc`. -/
def stack_pop (c : CPU) : Except CPU (Nat × CPU) :=
  let c1 : CPU := { c with reg := { c.reg with sp := (c.reg.sp + 1) % 256 } }
  match cpuRead c1 (c1.reg.sp ||| c1.stack_loc) with
  | .ok v => .ok (v, c1)
  | .error e => .error e

/-- Source `CPU::stack_pop16`: pops low byte first, then high byte. -/
def stack_pop16 (c : CPU) : Except CPU (Nat × CPU) :=
  match stack_pop c with
  | .error e => .error e
  | .ok (lo, c1) =>
    match stack_pop c1 with
    | .error e => .error e
    | .ok (hi, c2) => .ok (lo ||| (hi <<< 8), c2)

/-- Source `CPU::u8_operand`: advances pc (u16 wraparound) then reads the byte. -/
def u8_operand (c : CPU) : Except CPU (Nat × CPU) :=
  let c1 : CPU := { c with pc := (c.pc + 1) % 65536 }
  match cpuRead c1 c1.pc with
  | .ok v => .ok (v, c1)
  | .error e => .error e

/-- Source `CPU::u16_operand`: two operand bytes, low byte first. -/
def u16_operand (c : CPU) : Except CPU (Nat × CPU) :=
  let c1 : CPU := { c with pc := (c.pc + 1) % 65536 }
  match cpuRead c1 c1.pc with
  | .error e => .error e
  | .ok lo =>
    let c2 : CPU := { c1 with pc := (c1.pc + 1) % 65536 }
    match cpuRead c2 c2.pc with
    | .error e => .error e
    | .ok hi => .ok ((hi <<< 8) ||| lo, c2)

/-- Source `Data` from src/cpu/instructions.rs. -/
inductive Data where
  | Immediate (x : Nat)
  | Address (x : Nat)

/-- Source `Data::default_unwrap`: immediate is truncated `as u8`; an address is
dereferenced through the bus. -/
def Data.default_unwrap (d : Data) (c : CPU) : Except CPU Nat :=
  match d with
  | .Immediate x => .ok (x % 256)
  | .Address x => cpuRead c x

/-- Source `Data::address_unwrap`: panics on an immediate operand. -/
def Data.address_unwrap (d : Data) (c : CPU) : Except CPU Nat :=
  match d with
  | .Address x => .ok x
  | .Immediate _ => .error c

/-- Source `join_bytes` from src/cpu/instructions.rs. -/
def join_bytes (lo hi : Nat) : Nat := (hi <<< 8) ||| lo

/-- Source `page_crossed` from src/cpu/instructions.rs. -/
def page_crossed (a1 a2 : Nat) : Bool := (a1 &&& 0xFF00) != (a2 &&& 0xFF00)

/-- Source `Addrmode` from src/cpu/instructions.rs. -/
inductive Addrmode where
  | A
  | Abs
  | AbsX
  | AbsY
  | Imm
  | Impl
  | Ind
  | XInd
  | IndY
  | Rel
  | Zpg
  | ZpgX
  | ZpgY

/-- Source `Addrmode::unpack`: resolves the operand, consuming operand bytes
(advancing pc) and reporting a page cross for the indexed modes. -/
def Addrmode.unpack (m : Addrmode) (c : CPU) : Except CPU ((Data × Bool) × CPU) :=
  match m with
  | .Rel =>
    match u8_operand c with
    | .error e => .error e
    | .ok (v, c1) => .ok ((.Immediate v, false), c1)
  | .Imm =>
    match u8_operand c with
    | .error e => .error e
    | .ok (v, c1) => .ok ((.Immediate v, false), c1)
  | .A => .ok ((.Immediate c.reg.a, false), c)
  | .Abs =>
    match u16_operand c with
    | .error e => .error e
    | .ok (v, c1) => .ok ((.Address v, false), c1)
  | .AbsX =>
    match u16_operand c with
    | .error e => .error e
    | .ok (base, c1) =>
      let addr := (base + c1.reg.x) % 65536
      .ok ((.Address addr, page_crossed base addr), c1)
  | .AbsY =>
    match u16_operand c with
    | .error e => .error e
    | .ok (base, c1) =>
      let addr := (base + c1.reg.y) % 65536
      .ok ((.Address addr, page_crossed base addr), c1)
  | .Zpg =>
    match u8_operand c with
    | .error e => .error e
    | .ok (v, c1) => .ok ((.Address v, false), c1)
  | .ZpgX =>
    match u8_operand c with
    | .error e => .error e
    | .ok (v, c1) => .ok ((.Address ((v + c1.reg.x) % 256), false), c1)
  | .ZpgY =>
    match u8_operand c with
    | .error e => .error e
    | .ok (v, c1) => .ok ((.Address ((v + c1.reg.y) % 256), false), c1)
  | .Ind =>
    match u16_operand c with
    | .error e => .error e
    | .ok (adr, c1) =>
      match cpuRead c1 adr with
      | .error e => .error e
      | .ok lo =>
        match cpuRead c1 ((adr + 1) % 65536) with
        | .error e => .error e
        | .ok hi => .ok ((.Address (join_bytes lo hi), false), c1)
  | .XInd =>
    match u8_operand c with
    | .error e => .error e
    | .ok (zp_base, c1) =>
      let ptr := (zp_base + c1.reg.x) % 256
      match cpuRead c1 ptr with
      | .error e => .error e
      | .ok lo =>
        match cpuRead c1 ((ptr + 1) % 256) with
        | .error e => .error e
        | .ok hi => .ok ((.Address (join_bytes lo hi), false), c1)
  | .IndY =>
    match u8_operand c with
    | .error e => .error e
    | .ok (base, c1) =>
      match cpuRead c1 base with
      | .error e => .error e
      | .ok lo =>
        match cpuRead c1 ((base + 1) % 256) with
        | .error e => .error e
        | .ok hi =>
          let baseptr := join_bytes lo hi
          let new := (baseptr + c1.reg.y) % 65536
          .ok ((.Address new, page_crossed baseptr new), c1)
  | .Impl => .ok ((.Address 0x00, false), c)

/-- Source `Instr` from src/cpu/instructions.rs: handler, mode, base cycles. -/
structure Instr where
  run : Data → CPU → Except CPU CPU
  mode : Addrmode
  cycles : Nat

namespace instruction_set

/-- Source `instruction_set::adc`: 9-bit sum; carry from bit 8; zero/negative on
the truncated result; overflow from the sign-bit XOR test against the
OLD accumulator (the accumulator is assigned last). -/
def adc (d : Data) (c : CPU) : Except CPU CPU :=
  match d.default_unwrap c with
  | .error e => .error e
  | .ok w =>
    let sum : Nat := c.reg.a + w + (if c.flags.carry then 1 else 0)
    let result : Nat := sum % 256
    let f1 : Flag := { c.flags with carry := sum > 0xFF }
    let f2 : Flag := f1.set_zero_negative result
    let f3 : Flag := { f2 with overflow := ((w ^^^ result) &&& (c.reg.a ^^^ result) &&& 0x80) != 0 }
    .ok { c with flags := f3, reg := { c.reg with a := result } }

/-- Source `instruction_set::inc`: read, wrapping add 1, write back, zero/negative
on the new value. -/
def inc (d : Data) (c : CPU) : Except CPU CPU :=
  match d.default_unwrap c with
  | .error e => .error e
  | .ok q0 =>
    let q := (q0 + 1) % 256
    match d.address_unwrap c with
    | .error e => .error e
    | .ok addr =>
      match cpuWrite c addr q with
      | .error e => .error e
      | .ok c1 => .ok { c1 with flags := c1.flags.set_zero_negative q }

/-- Source `instruction_set::iny`. -/
def iny (_ : Data) (c : CPU) : Except CPU CPU :=
  let y := (c.reg.y + 1) % 256
  .ok { c with reg := { c.reg with y := y }, flags := c.flags.set_zero_negative y }

/-- Source `instruction_set::ldy`: flags from the loaded Y value. -/
def ldy (d : Data) (c : CPU) : Except CPU CPU :=
  match d.default_unwrap c with
  | .error e => .error e
  | .ok w => .ok { c with reg := { c.reg with y := w }, flags := c.flags.set_zero_negative w }

/-- Source `instruction_set::ldx`: loads X, but the source computes the flags
from `cpu.reg.y` (the Y register), not from the value just loaded. -/
def ldx (d : Data) (c : CPU) : Except CPU CPU :=
  match d.default_unwrap c with
  | .error e => .error e
  | .ok w => .ok { c with reg := { c.reg with x := w }, flags := c.flags.set_zero_negative c.reg.y }

/-- Source `instruction_set::lda`: flags from the loaded A value. -/
def lda (d : Data) (c : CPU) : Except CPU CPU :=
  match d.default_unwrap c with
  | .error e => .error e
  | .ok w => .ok { c with reg := { c.reg with a := w }, flags := c.flags.set_zero_negative w }

/-- Source `instruction_set::sta`: store A, no flag side effect. -/
def sta (d : Data) (c : CPU) : Except CPU CPU :=
  match d.address_unwrap c with
  | .error e => .error e
  | .ok addr => cpuWrite c addr c.reg.a

/-- Source `instruction_set::lsr`: carry from bit 0, accumulator receives
`w >> 1`, but `set_zero_negative` is applied to the ORIGINAL operand `w`,
not to the shifted result. -/
def lsr (d : Data) (c : CPU) : Except CPU CPU :=
  match d.default_unwrap c with
  | .error e => .error e
  | .ok w =>
    let f1 : Flag := { c.flags with carry := (w &&& 1) == 1 }
    let f2 : Flag := f1.set_zero_negative w
    .ok { c with flags := f2, reg := { c.reg with a := w >>> 1 } }

/-- Source `instruction_set::brk`: sets the halted flag, nothing else. -/
def brk (_ : Data) (c : CPU) : Except CPU CPU :=
  .ok { c with halted := true }

end instruction_set

/-- Source `lookup` from src/cpu/lookup_table.rs exactly as shipped: only opcode
`0x00` (BRK) has an entry; every other opcode is the
`Instruction unresolved` panic, modelled as `none`. -/
def lookup (opcode : Nat) : Option Instr :=
  match opcode with
  | 0x00 => some ⟨instruction_set.brk, .Impl, 7⟩
  | _ => none

/-- Modelled from the spec: the opcode table rows for LDA/STA/ADC/INC/LDY/INY
that the repository dispatches through `lookup` but that are absent from
the shipped src/cpu/lookup_table.rs (the spec, section 4.4, describes a
table sparse over all 256 opcodes, and the end-to-end scenario of
section 8 together with the byte-to-mnemonic comments of the `eztest`
test in src/main.rs fixes the rows used here: 0xA9 = LDA immediate,
0x85 = STA zero page, 0x65 = ADC zero page, 0xE6 = INC zero page,
0xA4 = LDY zero page, 0xC8 = INY implied; 0x00 = BRK is the row the
shipped table already has).  Base cycle counts follow the 6502 reference
values; no claim depends on them since `Bus::tick` is a no-op. -/
def lookupFull (opcode : Nat) : Option Instr :=
  match opcode with
  | 0x00 => some ⟨instruction_set.brk, .Impl, 7⟩
  | 0xA9 => some ⟨instruction_set.lda, .Imm, 2⟩
  | 0x85 => some ⟨instruction_set.sta, .Zpg, 3⟩
  | 0x65 => some ⟨instruction_set.adc, .Zpg, 3⟩
  | 0xE6 => some ⟨instruction_set.inc, .Zpg, 5⟩
  | 0xA4 => some ⟨instruction_set.ldy, .Zpg, 3⟩
  | 0xC8 => some ⟨instruction_set.iny, .Impl, 2⟩
  | _ => none

/-- Source `CPU::exec`, one fetch-decode-execute step, parametrised by the opcode
table so that both the shipped `lookup` stub and the spec-modelled
`lookupFull` instantiate it: read the opcode at pc, look it up (panic when
there is no row, before any state is touched), unpack the addressing mode,
run the handler, then unconditionally post-increment pc.  The log-file
append and the `tick` calls touch no CPU state. -/
def exec (tbl : Nat → Option Instr) (c : CPU) : Except CPU CPU :=
  match c.bus.read c.pc with
  | none => .error c
  | some opcode =>
    match tbl opcode with
    | none => .error c
    | some i =>
      match i.mode.unpack c with
      | .error e => .error e
      | .ok ((unpakt, _pagecross), c1) =>
        match i.run unpakt c1 with
        | .error e => .error e
        | .ok c2 => .ok { c2 with pc := (c2.pc + 1) % 65536 }

/-- Source `CPU::run` without the frontend callback, fuelled for termination:
step until the halted flag is set. -/
def runFuel (tbl : Nat → Option Instr) : Nat → CPU → Except CPU CPU
  | 0, c => .ok c
  | fuel + 1, c =>
    if c.halted then .ok c
    else
      match exec tbl c with
      | .error e => .error e
      | .ok c1 => runFuel tbl fuel c1

/-- Source `CPU::reset`: zero the registers, sp = 0xFD, flags from the power-on
pattern 0b100100, pc loaded little-endian from 0xFFFC/0xFFFD. -/
def reset (c : CPU) : Except CPU CPU :=
  let r : CPU := { c with reg := ⟨0, 0, 0, 0xfd⟩, flags := Flag.ofU8 0b100100 }
  match r.bus.read 0xFFFC, r.bus.read 0xFFFD with
  | some lo, some hi => .ok { r with pc := lo ||| (hi <<< 8) }
  | _, _ => .error r

/-- Source `CPU::load`: copy the image to 0x0600 (the slice copy panics if the
image runs past the end of the backing array), write the reset vector
0xFFFC/0xFFFD = 0x00/0x06, then `reset`. -/
def load (c : CPU) (data : List Nat) : Except CPU CPU :=
  if 0x600 + data.length ≤ MEMSIZE then
    let b : Bus :=
      ⟨fun i =>
        if 0x600 ≤ i ∧ i < 0x600 + data.length then data.getD (i - 0x600) 0
        else c.bus.memory i⟩
    match cpuWrite { c with bus := b } 0xFFFC 0x00 with
    | .error e => .error e
    | .ok c2 =>
      match cpuWrite c2 0xFFFD 0x06 with
      | .error e => .error e
      | .ok c3 => reset c3
  else .error c

/-- The program of the end-to-end scenario (the `ezcode` of the `eztest`
test in src/main.rs): LDA #$10; STA $20; LDA #$01; ADC $20; STA $21;
INC $21; LDY $21; INY; BRK. -/
def ezcode : List Nat :=
  [0xa9, 0x10, 0x85, 0x20, 0xa9, 0x01, 0x65, 0x20,
   0x85, 0x21, 0xe6, 0x21, 0xa4, 0x21, 0xc8, 0x00]

/-- A CPU whose every memory cell holds 0x02, an opcode with no row in the
shipped lookup table; used as the concrete input of the unresolved-opcode
witness. -/
def cUnresolved : CPU := { CPU.new Bus.default with bus := ⟨fun _ => 0x02⟩ }

/-- A fresh CPU with accumulator 0x7F and carry clear, the signed-overflow
boundary input of the adc scenario. -/
def c7F : CPU := { CPU.new Bus.default with reg := ⟨0x7F, 0, 0, 0xfd⟩ }

/-! ## Shared arithmetic lemmas -/

set_option maxRecDepth 10000 in
theorem lor_stack_loc : ∀ s : Nat, s < 256 → s ||| 0x100 = 0x100 + s := by decide

set_option maxRecDepth 10000 in
theorem shr1_and_0x80 : ∀ w : Nat, w < 256 → (w >>> 1) &&& 0x80 = 0 := by decide

theorem bytes_recompose (v : Nat) (hv : v < 65536) :
    (v &&& 0xFF) ||| (((v &&& 0xFF00) >>> 8) <<< 8) = v := by
  apply Nat.eq_of_testBit_eq
  intro i
  have h255 : (0xFF : Nat) = 2 ^ 8 - 1 := by norm_num
  have hFF00 : (0xFF00 : Nat) = (2 ^ 8 - 1) <<< 8 := by decide
  rw [Nat.testBit_or, Nat.testBit_and, Nat.testBit_shiftLeft, Nat.testBit_shiftRight,
    Nat.testBit_and, h255, hFF00, Nat.testBit_shiftLeft, Nat.testBit_two_pow_sub_one,
    Nat.testBit_two_pow_sub_one]
  by_cases h1 : i < 8
  · simp [h1, Nat.not_le.mpr h1]
  · by_cases h2 : i < 16
    · have h3 : 8 ≤ i := by omega
      have h4 : 8 + (i - 8) = i := by omega
      have h5 : i - 8 < 8 := by omega
      simp [h1, h3, h4, h5]
    · have h3 : 8 ≤ i := by omega
      have h4 : 8 + (i - 8) = i := by omega
      have h5 : ¬(i - 8 < 8) := by omega
      have hb : v.testBit i = false := by
        apply Nat.testBit_lt_two_pow
        have h6 : (65536 : Nat) = 2 ^ 16 := by norm_num
        have h7 : (2 : Nat) ^ 16 ≤ 2 ^ i := Nat.pow_le_pow_right (by norm_num) (by omega)
        omega
      simp [h1, h3, h4, h5, hb]

/-! ## Stack equation lemmas -/

/-- A push of a byte-sized value takes the non-recursive branch: one write
at stack page base + sp, one wrapping decrement of sp. -/
theorem stack_push_byte_eq (c : CPU) (data : Nat) (hloc : c.stack_loc = 0x100)
    (hsp : c.reg.sp < 256) (hd : data ≤ 0xFF) :
    stack_push c data = .ok { c with
      bus := ⟨fun i => if i = 0x100 + c.reg.sp then data else c.bus.memory i⟩,
      reg := { c.reg with sp := (c.reg.sp + 255) % 256 } } := by
  unfold stack_push
  rw [dif_neg (by omega)]
  unfold cpuWrite Bus.write
  rw [hloc]
  rw [if_pos (show 0x100 + c.reg.sp < MEMSIZE by unfold MEMSIZE; omega)]
  simp [Nat.mod_eq_of_lt (show data < 256 by omega)]

/-- A push of a value above 0xFF decomposes into exactly two byte pushes,
high byte first at base + sp, low byte second at base + (sp - 1 wrapped),
sp decremented twice. -/
theorem stack_push16_eq (c : CPU) (data : Nat) (hloc : c.stack_loc = 0x100)
    (hsp : c.reg.sp < 256) (hd : 0xFF < data) :
    stack_push c data = .ok { c with
      bus := ⟨fun i =>
        if i = 0x100 + (c.reg.sp + 255) % 256 then data &&& 0xFF
        else if i = 0x100 + c.reg.sp then (data &&& 0xFF00) >>> 8
        else c.bus.memory i⟩,
      reg := { c.reg with sp := ((c.reg.sp + 255) % 256 + 255) % 256 } } := by
  have hhi : (data &&& 0xFF00) >>> 8 ≤ 0xFF := by
    have h1 : data &&& 0xFF00 ≤ 0xFF00 := Nat.and_le_right
    have h2 : (data &&& 0xFF00) / 256 ≤ 0xFF00 / 256 := Nat.div_le_div_right h1
    have h3 : (data &&& 0xFF00) >>> 8 = (data &&& 0xFF00) / 256 := by
      rw [Nat.shiftRight_eq_div_pow]
    omega
  have hlo : data &&& 0xFF ≤ 0xFF := Nat.and_le_right
  unfold stack_push
  rw [dif_pos (by omega)]
  dsimp only
  rw [stack_push_byte_eq c _ hloc hsp hhi]
  dsimp only
  rw [stack_push_byte_eq _ _ (by simpa using hloc) (by simp; omega) hlo]

/-- A pop increments sp with wraparound and reads base + new sp (the
or-computed address equals the addition-computed one). -/
theorem stack_pop_eq (c : CPU) (hloc : c.stack_loc = 0x100) (hsp : c.reg.sp < 256) :
    stack_pop c = .ok (c.bus.memory (0x100 + (c.reg.sp + 1) % 256),
      { c with reg := { c.reg with sp := (c.reg.sp + 1) % 256 } }) := by
  unfold stack_pop cpuRead Bus.read
  simp only [hloc]
  rw [lor_stack_loc _ (by omega)]
  rw [if_pos (show 0x100 + (c.reg.sp + 1) % 256 < MEMSIZE by unfold MEMSIZE; omega)]

/-! ## Claim theorems -/

/-- C2: the backing array is `[u8; 0xFFFF]` = 65535 bytes, one byte short
of the 16-bit address space, so `Bus::read`/`Bus::write` at the
representable address 0xFFFF index out of bounds and panic, while 0xFFFE
still succeeds.  This refutes the no-error-path invariant the claim
states and exhibits the off-by-one in the code. -/
theorem bus_top_address_out_of_bounds :
    Bus.read Bus.default 0xFFFF = none ∧
    (Bus.write Bus.default 0xFFFF 0xAB).isSome = false ∧
    Bus.read Bus.default 0xFFFE = some 0 ∧
    (Bus.write Bus.default 0xFFFE 0xAB).isSome = true := by
  decide

/-- C4: loading X with 0x80 on a fresh CPU (Y = 0) leaves zero = true and
negative = false: the ldx handler computes the flags from the Y register,
not from the value just loaded into X (which would give zero = false,
negative = true). -/
theorem ldx_flags_from_y :
    (instruction_set.ldx (Data.Immediate 0x80) (CPU.new Bus.default)).toOption.map
        (fun c2 => (c2.reg.x, c2.flags.zero, c2.flags.negative)) =
      some (0x80, true, false) := by
  decide

set_option maxRecDepth 10000 in
/-- C5: status-byte packing and unpacking round-trip: unpacking a packed
flag set restores all seven named bits; bit 5 is forced to 1 by packing
and ignored by unpacking; for every byte v the pack-after-unpack image
agrees with v on the mask 0b11001111. -/
theorem flag_pack_unpack_roundtrip :
    (∀ f : Flag, Flag.ofU8 (Flag.toU8 f) = f) ∧
    (∀ f : Flag, Flag.toU8 f &&& 0b100000 = 0b100000) ∧
    (∀ v : Nat, v < 256 → Flag.ofU8 (v &&& 0b11011111) = Flag.ofU8 v) ∧
    (∀ v : Nat, v < 256 → Flag.toU8 (Flag.ofU8 v) &&& 0b11001111 = v &&& 0b11001111) := by
  refine ⟨?_, ?_, ?_, ?_⟩
  · intro f
    rcases f with ⟨c, z, i, d, b, o, n⟩
    revert c z i d b o n
    decide
  · intro f
    rcases f with ⟨c, z, i, d, b, o, n⟩
    revert c z i d b o n
    decide
  · decide
  · decide

/-- C5 witness at v = 0xAB. -/
theorem flag_pack_unpack_roundtrip_witness :
    Flag.toU8 (Flag.ofU8 0xAB) &&& 0b11001111 = 0xAB &&& 0b11001111 :=
  flag_pack_unpack_roundtrip.2.2.2 0xAB (by decide)

/-- C9: lsr puts bit 0 of the operand into carry and `w >> 1` into the
accumulator, but feeds the ORIGINAL operand `w` to `set_zero_negative`,
so zero = (w == 0) and negative = bit 7 of w, even though bit 7 of the
stored result is always 0. -/
theorem lsr_flags_from_operand (c : CPU) (w : Nat) (hw : w < 256) :
    (instruction_set.lsr (Data.Immediate w) c).toOption.map
        (fun c2 => (c2.reg.a, c2.flags.carry, c2.flags.zero, c2.flags.negative)) =
      some (w >>> 1, (w &&& 1) == 1, w == 0, (w &&& 0x80) != 0) ∧
    (w >>> 1) &&& 0x80 = 0 := by
  constructor
  · simp [instruction_set.lsr, Data.default_unwrap, Flag.set_zero_negative,
      Except.toOption, Nat.mod_eq_of_lt hw]
  · exact shr1_and_0x80 w hw

/-- C9 witness at w = 0x80 (bit 7 set): negative is reported true while
the stored result 0x40 has bit 7 clear. -/
theorem lsr_flags_from_operand_witness :
    (instruction_set.lsr (Data.Immediate 0x80) (CPU.new Bus.default)).toOption.map
        (fun c2 => (c2.reg.a, c2.flags.carry, c2.flags.zero, c2.flags.negative)) =
      some (0x80 >>> 1, (0x80 &&& 1) == 1, 0x80 == 0, (0x80 &&& 0x80) != 0) ∧
    (0x80 >>> 1) &&& 0x80 = 0 :=
  lsr_flags_from_operand (CPU.new Bus.default) 0x80 (by decide)

/-- C10: reset touches only the registers (a = x = y = 0, sp = 0xFD), the
flags (only interrupt-disable set) and the pc (little-endian from
0xFFFC/0xFFFD); the bus memory, the halted flag and stack_loc are carried
over unchanged, so a halted CPU stays halted. -/
theorem reset_frame (c : CPU) :
    reset c = .ok
      { bus := c.bus,
        pc := c.bus.memory 0xFFFC ||| (c.bus.memory 0xFFFD <<< 8),
        flags := ⟨false, false, true, false, false, false, false⟩,
        reg := ⟨0, 0, 0, 0xfd⟩,
        halted := c.halted,
        stack_loc := c.stack_loc } := by
  rfl

/-- C1: loading the spec end-to-end program (LDA #$10; STA $20; LDA #$01;
ADC $20; STA $21; INC $21; LDY $21; INY; BRK) and stepping until the
halted flag is set terminates at the BRK with memory[0x20] = 0x10,
memory[0x21] = 0x12, A = 0x11, Y = 0x13 (table rows beyond BRK taken from
`lookupFull`, modelled from the spec). -/
theorem ezcode_end_to_end :
    ((load (CPU.new Bus.default) ezcode).bind (runFuel lookupFull 20)).toOption.map
        (fun c => (c.halted, c.bus.memory 0x20, c.bus.memory 0x21, c.reg.a, c.reg.y)) =
      some (true, 0x10, 0x12, 0x11, 0x13) := by
  decide

/-- C3 counterexample: pushing the 16-bit value 0x0005 (high byte zero) on
a fresh CPU (sp = 0xFD) performs a SINGLE 8-bit push: sp becomes 0xFC,
not the 0xFB two pushes would give, and after stack_pop16 sp is 0xFE,
not the original 0xFD, refuting the claim for values at or below 0xFF. -/
theorem stack_push_small_value_counterexample :
    (stack_push (CPU.new Bus.default) 0x05).toOption.map (fun c1 => c1.reg.sp) = some 0xFC ∧
    ¬((stack_push (CPU.new Bus.default) 0x05).toOption.map (fun c1 => c1.reg.sp) = some 0xFB) ∧
    ((stack_push (CPU.new Bus.default) 0x05).bind stack_pop16).toOption.map
        (fun p => p.2.reg.sp) = some 0xFE ∧
    ¬(((stack_push (CPU.new Bus.default) 0x05).bind stack_pop16).toOption.map
        (fun p => p.2.reg.sp) = some 0xFD) := by
  rw [stack_push_byte_eq (CPU.new Bus.default) 0x05 rfl (by decide) (by decide)]
  decide

/-- C3 (amended): for 16-bit values ABOVE 0xFF, stack_push decomposes into
exactly two 8-bit pushes, high byte first (high at 0x100 + sp, low at
0x100 + (sp - 1 wrapped), sp decremented by two in total), and an
immediately following stack_pop16 returns exactly the pushed value with
the stack pointer restored. -/
theorem stack_push16_roundtrip (c : CPU) (v : Nat) (hloc : c.stack_loc = 0x100)
    (hsp : c.reg.sp < 256) (hv1 : 0xFF < v) (hv2 : v < 65536) :
    ((stack_push c v).bind stack_pop16).toOption.map (fun p => (p.1, p.2.reg.sp)) =
      some (v, c.reg.sp) ∧
    (stack_push c v).toOption.map (fun c1 =>
        (c1.bus.memory (0x100 + c.reg.sp),
         c1.bus.memory (0x100 + (c.reg.sp + 255) % 256),
         c1.reg.sp)) =
      some ((v &&& 0xFF00) >>> 8, v &&& 0xFF, (c.reg.sp + 254) % 256) := by
  have hne : 0x100 + c.reg.sp ≠ 0x100 + (c.reg.sp + 255) % 256 := by omega
  rw [stack_push16_eq c v hloc hsp hv1]
  constructor
  · show (stack_pop16 _).toOption.map _ = _
    unfold stack_pop16
    rw [stack_pop_eq _ (by simpa using hloc) (by dsimp only; omega)]
    dsimp only
    have e1 : (((c.reg.sp + 255) % 256 + 255) % 256 + 1) % 256 = (c.reg.sp + 255) % 256 := by
      omega
    rw [e1]
    rw [stack_pop_eq _ (by simpa using hloc) (by dsimp only; omega)]
    dsimp only
    have e2 : ((c.reg.sp + 255) % 256 + 1) % 256 = c.reg.sp := by omega
    rw [e2]
    rw [if_pos rfl, if_neg (by omega), if_pos rfl]
    simp [Except.toOption, bytes_recompose v hv2]
  · have e3 : ((c.reg.sp + 255) % 256 + 255) % 256 = (c.reg.sp + 254) % 256 := by omega
    simp [Except.toOption, hne, e3]

/-- C3 witness at v = 0x1234 on a fresh CPU. -/
theorem stack_push16_roundtrip_witness :
    ((stack_push (CPU.new Bus.default) 0x1234).bind stack_pop16).toOption.map
        (fun p => (p.1, p.2.reg.sp)) = some (0x1234, 0xFD) ∧
    (stack_push (CPU.new Bus.default) 0x1234).toOption.map
        (fun c1 => (c1.bus.memory (0x100 + 0xFD),
          c1.bus.memory (0x100 + (0xFD + 255) % 256), c1.reg.sp)) =
      some ((0x1234 &&& 0xFF00) >>> 8, 0x1234 &&& 0xFF, (0xFD + 254) % 256) :=
  stack_push16_roundtrip (CPU.new Bus.default) 0x1234 rfl (by decide) (by decide) (by decide)

/-- C6: the adc handler computes the 9-bit sum, truncates, and sets
overflow exactly when `(operand ^ result) & (old accumulator ^ result)
& 0x80 != 0`; at the signed boundary (A = 0x7F, operand 0x01, carry
clear) the result is 0x80 with carry false, overflow true, negative true,
zero false. -/
theorem adc_signed_overflow (c : CPU) (w : Nat) (hw : w < 256) :
    (instruction_set.adc (Data.Immediate w) c).toOption.map
        (fun c2 => (c2.reg.a, c2.flags.carry, c2.flags.overflow)) =
      some ((c.reg.a + w + if c.flags.carry then 1 else 0) % 256,
        decide (c.reg.a + w + (if c.flags.carry then 1 else 0) > 0xFF),
        ((w ^^^ (c.reg.a + w + (if c.flags.carry then 1 else 0)) % 256) &&&
            (c.reg.a ^^^ (c.reg.a + w + (if c.flags.carry then 1 else 0)) % 256) &&&
            0x80) != 0) ∧
    (instruction_set.adc (Data.Immediate 0x01) c7F).toOption.map
        (fun c2 =>
          (c2.reg.a, c2.flags.carry, c2.flags.overflow, c2.flags.negative, c2.flags.zero)) =
      some (0x80, false, true, true, false) := by
  constructor
  · simp [instruction_set.adc, Data.default_unwrap, Flag.set_zero_negative,
      Except.toOption, Nat.mod_eq_of_lt hw]
  · decide

/-- C6 witness at A = 0, operand 0x42, carry clear. -/
theorem adc_signed_overflow_witness :
    (instruction_set.adc (Data.Immediate 0x42) (CPU.new Bus.default)).toOption.map
        (fun c2 => (c2.reg.a, c2.flags.carry, c2.flags.overflow)) =
      some (0x42, false, false) :=
  (adc_signed_overflow (CPU.new Bus.default) 0x42 (by decide)).1

/-- C7: when the opcode fetched at pc has no row in the opcode table
(whatever table instantiates the dispatch, in particular the shipped
`lookup`), the step is a fatal error whose carried state is EXACTLY the
pre-step state — no register, flag, pc or memory cell mutated — and the
run loop terminates immediately with that error. -/
theorem exec_unresolved_opcode (tbl : Nat → Option Instr) (c : CPU) (v : Nat)
    (hv : c.bus.read c.pc = some v) (htbl : tbl v = none) :
    exec tbl c = .error c ∧
    (c.halted = false → ∀ fuel, runFuel tbl (fuel + 1) c = .error c) := by
  have hexec : exec tbl c = .error c := by
    unfold exec
    rw [hv]
    dsimp only
    rw [htbl]
  refine ⟨hexec, fun hh fuel => ?_⟩
  unfold runFuel
  rw [hh]
  simp [hexec]

/-- C7 witness: a CPU whose memory holds 0x02 everywhere; the shipped
table has no row for 0x02. -/
theorem exec_unresolved_opcode_witness :
    exec lookup cUnresolved = .error cUnresolved ∧
    runFuel lookup 1 cUnresolved = .error cUnresolved :=
  ⟨(exec_unresolved_opcode lookup cUnresolved 0x02 rfl rfl).1,
   (exec_unresolved_opcode lookup cUnresolved 0x02 rfl rfl).2 rfl 0⟩

/-- C8: with stack_loc = 0x100 and an 8-bit sp, the push address
0x100 + sp and the pop address sp | 0x100 coincide and lie in the stack
page 0x100..0x1FF; stack_push (single or double) never writes outside the
page, and stack_pop reads from inside the page. -/
theorem stack_accesses_stay_in_page (c : CPU) (hloc : c.stack_loc = 0x100)
    (hsp : c.reg.sp < 256) :
    (c.stack_loc + c.reg.sp = c.reg.sp ||| c.stack_loc ∧
      0x100 ≤ c.stack_loc + c.reg.sp ∧ c.stack_loc + c.reg.sp < 0x200) ∧
    (∀ data i, i < 0x100 ∨ 0x200 ≤ i →
      (stack_push c data).toOption.map (fun c2 => c2.bus.memory i) = some (c.bus.memory i)) ∧
    (stack_pop c = .ok (c.bus.memory (0x100 + (c.reg.sp + 1) % 256),
        { c with reg := { c.reg with sp := (c.reg.sp + 1) % 256 } }) ∧
      (c.reg.sp + 1) % 256 ||| c.stack_loc = 0x100 + (c.reg.sp + 1) % 256 ∧
      0x100 ≤ 0x100 + (c.reg.sp + 1) % 256 ∧ 0x100 + (c.reg.sp + 1) % 256 < 0x200) := by
  refine ⟨⟨?_, by omega, by omega⟩, ?_, stack_pop_eq c hloc hsp, ?_, by omega, by omega⟩
  · rw [hloc, lor_stack_loc _ hsp]
  · intro data i hi
    by_cases hd : data ≤ 0xFF
    · rw [stack_push_byte_eq c data hloc hsp hd]
      have hne1 : i ≠ 0x100 + c.reg.sp := by omega
      simp [Except.toOption, hne1]
    · rw [stack_push16_eq c data hloc hsp (by omega)]
      have hne1 : i ≠ 0x100 + c.reg.sp := by omega
      have hne2 : i ≠ 0x100 + (c.reg.sp + 255) % 256 := by omega
      simp [Except.toOption, hne1, hne2]
  · rw [hloc, lor_stack_loc _ (by omega)]

/-- C8 witness on a fresh CPU: a double push leaves cell 0 untouched and
the pop address is inside the page. -/
theorem stack_accesses_stay_in_page_witness :
    (stack_push (CPU.new Bus.default) 0x1234).toOption.map (fun c2 => c2.bus.memory 0) =
      some 0 ∧
    0x100 + (0xFD + 1) % 256 < 0x200 :=
  ⟨(stack_accesses_stay_in_page (CPU.new Bus.default) rfl (by decide)).2.1 0x1234 0
      (by omega),
   (stack_accesses_stay_in_page (CPU.new Bus.default) rfl (by decide)).2.2.2.2.2⟩

end Rusty6502
